import Mathlib

/-!
Shallow embedding of the ethical decision engine in
`src/app/ai_backend/genesis_ethical_governor.py` (class `EthicalGovernor`),
together with theorems settling the frozen claims about it.

The Python module defines each method of the class several times; the copies
are byte-identical, and Python binds the last definition of each name, so the
embedding follows the final copies: `evaluate_action` (lines 1717-1801),
`review_decision` (1803-1867), `_evaluate_action` (1869-1929),
`_check_violations` (1931-1952), `_check_concerns` (1954-1971),
`_initialize_principle_weights` (166-205), `__init__` (128-164) and
`_setup_core_interceptors` (207-225).

Modelling conventions:
- Python floats in the module are the exact literals 0.7/0.8/0.85/0.9/0.95/1.0
  and are only constructed and compared, never computed with, so they are
  embedded as rationals.
- `time.time()` and `hash(action_type)` are impure builtins; they are supplied
  through an `Ambient` value (a clock reading and a hash value).
- Python dictionaries that the code only writes and reads by key are embedded
  as association lists where insertion conses in front and lookup takes the
  first hit, which matches overwrite-on-assign semantics.
- Exceptions are embedded with `Except String`; raising external collaborators
  (the awareness sink `perceive_ethical_decision`) and exotic failure points
  are injection parameters of type `Option String` (`some msg` = that point
  raises `msg`).
-/

namespace GenesisGovernor

/-- Association-list lookup with string keys: first binding wins, matching a
Python dict in which assignment conses a fresh binding in front. -/
def lookupStr {α : Type} : List (String × α) → String → Option α
  | [], _ => none
  | (k, v) :: rest, p => if p = k then some v else lookupStr rest p

/-- Character-list test: the first list is a prefix of the second. -/
def starts_with_chars : List Char → List Char → Bool
  | [], _ => true
  | _ :: _, [] => false
  | a :: as, b :: bs => a == b && starts_with_chars as bs

/-- Character-list test: the first list occurs contiguously in the
second. -/
def contains_chars (needle : List Char) : List Char → Bool
  | [] => starts_with_chars needle []
  | b :: bs => starts_with_chars needle (b :: bs) || contains_chars needle bs

/-- Python substring test `needle in hay`, computed structurally on the
character lists. -/
def pyIn (needle hay : String) : Bool :=
  contains_chars needle.data hay.data

/-- Python `str.lower()`, computed structurally on the character list. -/
def py_lower (s : String) : String :=
  String.mk (s.data.map Char.toLower)

/-- Enum `EthicalSeverity` (src lines 26-32). -/
inductive EthicalSeverity where
  | info
  | concern
  | warning
  | violation
  | critical
deriving DecidableEq, Repr

/-- Enum `EthicalDecisionType` (src lines 34-40). -/
inductive EthicalDecisionType where
  | allow
  | monitor
  | restrict
  | block
  | escalate
deriving DecidableEq, Repr

/-- Dataclass `EthicalContext` (src lines 54-74), with the same field
defaults; `metadata` values are opaque pass-through data, embedded as
strings. -/
structure EthicalContext where
  action_type : String
  actor : String
  target : Option String := none
  scope : String := "local"
  user_consent : Option Bool := none
  reversible : Bool := true
  persistent : Bool := false
  sensitive_data_involved : Bool := false
  system_modification : Bool := false
  user_visible : Bool := true
  metadata : List (String × String) := []
deriving DecidableEq, Repr

/-- Dataclass `EthicalDecision` (src lines 76-100), with the same field
defaults; `timestamp` is the ambient clock reading. -/
structure EthicalDecision where
  decision_id : String
  timestamp : Nat
  action_type : String
  actor : String
  context : EthicalContext
  decision : EthicalDecisionType
  severity : EthicalSeverity
  affected_principles : List String
  reasoning : String
  confidence : ℚ
  restrictions : List String := []
  monitoring_requirements : List String := []
  escalation_reason : Option String := none
deriving DecidableEq, Repr

/-- The `ethical_metrics` counters initialised in `__init__`
(src lines 148-154). -/
structure EthicalMetrics where
  total_decisions : Nat := 0
  violations_prevented : Nat := 0
  restrictions_imposed : Nat := 0
  escalations_required : Nat := 0
  learning_adjustments : Nat := 0
deriving DecidableEq, Repr

/-- The impure builtins consumed by the module: a `time.time()` reading and
the value of `hash(action_type)`. -/
structure Ambient where
  now : Nat
  hashAT : Nat
deriving DecidableEq, Repr

/-- Signature of an interceptor registered in `action_interceptors`: it
receives `(actor, action_data, context, decision_id)` and returns a decision
(src lines 1761-1764). -/
def InterceptorFn : Type :=
  String → List (String × String) → EthicalContext → String → EthicalDecision

/-- The mutable state the governor holds, mirroring the fields set in
`__init__` (src lines 128-164). `active_restrictions` and
`violation_patterns` are never touched by the embedded operations but are
kept so that frame statements quantify over the whole state. -/
structure GovernorState where
  governance_active : Bool
  strictness_level : ℚ
  learning_mode : Bool
  decision_history : List EthicalDecision
  monitoring_queue : List EthicalDecision
  active_restrictions : List (String × String)
  principle_weights : List (String × ℚ)
  violation_patterns : List (String × List String)
  ethical_metrics : EthicalMetrics
  action_interceptors : List (String × InterceptorFn)

/-- The nine principles of the default weight table (`EthicalDomain`,
src lines 42-52). -/
def principle_names : List String :=
  ["privacy", "security", "autonomy", "transparency", "fairness",
   "safety", "creativity", "human_wellbeing", "system_integrity"]

/-- The `default_weights` table inside `_initialize_principle_weights`
(src lines 189-199). -/
def default_weights : List (String × ℚ) :=
  [("privacy", 1), ("security", 1), ("autonomy", 9/10),
   ("transparency", 9/10), ("fairness", 8/10), ("safety", 9/10),
   ("creativity", 8/10), ("human_wellbeing", 1), ("system_integrity", 9/10)]

/-- The keyword-seeded weights of the first loop of
`_initialize_principle_weights` (src lines 176-186). -/
def seed_table : List (String × ℚ) :=
  [("privacy", 1), ("security", 1), ("transparency", 9/10),
   ("autonomy", 9/10), ("creativity", 8/10)]

/-- One iteration of the first loop of `_initialize_principle_weights`
(src lines 176-186): an if/elif chain over case-insensitive substring tests
on one foundation statement, assigning at most one seed weight. -/
def seed_step (weights : List (String × ℚ)) (principle : String) :
    List (String × ℚ) :=
  if pyIn "privacy" (py_lower principle) then
    ("privacy", 1) :: weights
  else if pyIn "security" (py_lower principle) then
    ("security", 1) :: weights
  else if pyIn "transparency" (py_lower principle) then
    ("transparency", 9/10) :: weights
  else if pyIn "autonomy" (py_lower principle) then
    ("autonomy", 9/10) :: weights
  else if pyIn "creativity" (py_lower principle) then
    ("creativity", 8/10) :: weights
  else weights

/-- The first loop of `_initialize_principle_weights`, folded over the
foundation statements in order. -/
def seed_fold : List String → List (String × ℚ) → List (String × ℚ)
  | [], weights => weights
  | stmt :: rest, weights => seed_fold rest (seed_step weights stmt)

/-- The second loop of `_initialize_principle_weights` (src lines 201-203):
for each default pair in table order, insert it only when the key is still
missing. -/
def fill_fold : List (String × ℚ) → List (String × ℚ) → List (String × ℚ)
  | [], weights => weights
  | (p, w) :: rest, weights =>
      fill_fold rest
        (if (lookupStr weights p).isSome then weights else (p, w) :: weights)

/-- `_initialize_principle_weights` (src lines 166-205): seed weights from
the foundation statements, then fill every missing principle from
`default_weights`. -/
def init_principle_weights (foundation : List String) : List (String × ℚ) :=
  fill_fold default_weights (seed_fold foundation [])

/-- `_check_violations` (src lines 1931-1952): three independent boolean
rules appending principle names in a fixed order. Python
`not context.user_consent` on an `Optional[bool]` is true for both `None`
and `False`, embedded as the negation of `getD false`. -/
def check_violations (action_type : String) (c : EthicalContext) :
    List String :=
  (if c.sensitive_data_involved && !(c.user_consent.getD false)
   then ["privacy"] else []) ++
  (if c.system_modification && (c.scope == "global") then ["security"] else []) ++
  (if !c.user_visible && c.persistent then ["autonomy"] else [])

/-- `_check_concerns` (src lines 1954-1971): two independent boolean rules
appending principle names in a fixed order. -/
def check_concerns (action_type : String) (c : EthicalContext) :
    List String :=
  (if !c.user_visible &&
      !(["system_monitor", "background_task"].contains action_type)
   then ["transparency"] else []) ++
  (if !c.reversible && (["system", "global"].contains c.scope)
   then ["safety"] else [])

/-- Body of `_evaluate_action` after its decision id is fixed
(src lines 1880-1929): block on any violation, otherwise monitor on any
concern, otherwise allow. -/
def decision_pipeline (decision_id : String) (now : Nat)
    (action_type : String) (c : EthicalContext) : EthicalDecision :=
  match check_violations action_type c with
  | [] =>
    match check_concerns action_type c with
    | [] =>
      { decision_id := decision_id, timestamp := now,
        action_type := action_type, actor := c.actor, context := c,
        decision := EthicalDecisionType.allow,
        severity := EthicalSeverity.info, affected_principles := [],
        reasoning := "No ethical concerns identified", confidence := 9/10 }
    | concerns =>
      { decision_id := decision_id, timestamp := now,
        action_type := action_type, actor := c.actor, context := c,
        decision := EthicalDecisionType.monitor,
        severity := EthicalSeverity.concern, affected_principles := concerns,
        reasoning := "Ethical concerns identified: " ++
          String.intercalate ", " concerns,
        confidence := 85/100,
        monitoring_requirements := ["increased_logging", "user_notification"] }
  | violations =>
      { decision_id := decision_id, timestamp := now,
        action_type := action_type, actor := c.actor, context := c,
        decision := EthicalDecisionType.block,
        severity := EthicalSeverity.violation,
        affected_principles := violations,
        reasoning := "Ethical violations detected: " ++
          String.intercalate ", " violations,
        confidence := 95/100 }

/-- `_evaluate_action` (src lines 1869-1929): builds the composite decision
id `decision_(time)_(hash mod 10000)` (line 1878) and runs the
violation/concern pipeline. -/
def evaluate_action_general (amb : Ambient) (action_type : String)
    (c : EthicalContext) : EthicalDecision :=
  decision_pipeline
    ("decision_" ++ toString amb.now ++ "_" ++ toString (amb.hashAT % 10000))
    amb.now action_type c

/-- Instrumented copy of the `_evaluate_action` body that also records which
of the two check methods are invoked, in the order of the source statements:
`_check_violations` is always called first (line 1881); the method returns
on a non-empty violation list (lines 1883-1896) before the call to
`_check_concerns` (line 1899) is reached. -/
def decision_pipeline_traced (decision_id : String) (now : Nat)
    (action_type : String) (c : EthicalContext) :
    EthicalDecision × List String :=
  match check_violations action_type c with
  | [] =>
    (decision_pipeline decision_id now action_type c,
     ["check_violations", "check_concerns"])
  | _ :: _ =>
    (decision_pipeline decision_id now action_type c, ["check_violations"])

/-- The loosely-typed context mapping accepted by `review_decision`: a plain
dictionary whose `get` calls are total. Fields mirror the keys read at
src lines 1822-1834. -/
structure ContextMap where
  persona : Option String := none
  target : Option String := none
  scope : Option String := none
  user_consent : Option Bool := none
  reversible : Option Bool := none
  persistent : Option Bool := none
  sensitive_data : Option Bool := none
  system_modification : Option Bool := none
  user_visible : Option Bool := none
deriving DecidableEq, Repr

/-- The `EthicalContext(...)` construction inside `review_decision`
(src lines 1822-1834): each field comes from `context.get` with the stated
default. -/
def build_ethical_context (action_type : String) (cm : ContextMap)
    (metadata : List (String × String)) : EthicalContext :=
  { action_type := action_type,
    actor := cm.persona.getD "unknown",
    target := cm.target,
    scope := cm.scope.getD "local",
    user_consent := cm.user_consent,
    reversible := cm.reversible.getD true,
    persistent := cm.persistent.getD false,
    sensitive_data_involved := cm.sensitive_data.getD false,
    system_modification := cm.system_modification.getD false,
    user_visible := cm.user_visible.getD true,
    metadata := metadata }

/-- The fallback decision built by the `except` handler of `review_decision`
(src lines 1853-1867) for a caught exception message `m`. -/
def review_fallback (amb : Ambient) (action_type : String) (cm : ContextMap)
    (m : String) : EthicalDecision :=
  { decision_id := "error_" ++ toString amb.now,
    timestamp := amb.now,
    action_type := action_type,
    actor := cm.persona.getD "unknown",
    context := { action_type := action_type, actor := "error" },
    decision := EthicalDecisionType.block,
    severity := EthicalSeverity.critical,
    affected_principles := ["system_integrity"],
    reasoning := "Ethical review failed: " ++ m,
    confidence := 1,
    escalation_reason := some "review_system_error" }

/-- Turns an optional injected exception into an `Except` step. -/
def raise_if (e : Option String) : Except String Unit :=
  match e with
  | some m => Except.error m
  | none => Except.ok ()

/-- The first exception that the `try` body of `review_decision` hits, given
the two injection points. -/
def review_body_error (constructError sinkError : Option String) :
    Option String :=
  match constructError with
  | some m => some m
  | none => sinkError

/-- `review_decision` (src lines 1803-1867). The `try` body defaults
`metadata`, builds an `EthicalContext` from the map, evaluates it with
`_evaluate_action`, and emits to the awareness sink; the `except` handler
converts any raised message into `review_fallback`. `constructError`
injects an exception raised while the context is being built (the claims
quantify over any internal failure on this path); `sinkError` injects a
failure of the external `perceive_ethical_decision` call (line 1840). The
method reads no governor state and writes none, which the returned state
component records. -/
def review_decision (s : GovernorState) (amb : Ambient)
    (action_type : String) (cm : ContextMap)
    (metadata : Option (List (String × String)))
    (constructError sinkError : Option String) :
    GovernorState × Except String EthicalDecision :=
  let tryBody : Except String EthicalDecision := do
    raise_if constructError
    let md := metadata.getD []
    let ec := build_ethical_context action_type cm md
    let d := evaluate_action_general amb action_type ec
    raise_if sinkError
    pure d
  match tryBody with
  | Except.ok d => (s, Except.ok d)
  | Except.error e => (s, Except.ok (review_fallback amb action_type cm e))

/-- The method names the class body actually defines (every repetition of
the block defines the same set, and Python keeps the last copy of each):
`__init__` (128), `_initialize_principle_weights` (166),
`_setup_core_interceptors` (207), `activate_governance` (1973),
`register_interceptor` (1706), `evaluate_action` (1717),
`review_decision` (1803), `_evaluate_action` (1869),
`_check_violations` (1931), `_check_concerns` (1954). -/
def class_method_names : List String :=
  ["__init__", "_initialize_principle_weights", "_setup_core_interceptors",
   "activate_governance", "register_interceptor", "evaluate_action",
   "review_decision", "_evaluate_action", "_check_violations",
   "_check_concerns"]

/-- The five interceptor evaluators that `_setup_core_interceptors`
(src lines 207-225) passes to `register_interceptor`, in registration
order. -/
def interceptor_method_names : List String :=
  ["_evaluate_data_access", "_evaluate_system_modification",
   "_evaluate_user_interaction", "_evaluate_ai_decision",
   "_evaluate_network_communication"]

/-- Python attribute lookup `self.<name>` for a method: succeeds when the
class body defines `name`, otherwise raises `AttributeError` (the class
defines no `__getattr__` fallback and the instance never stores
same-named attributes). -/
def getattr_method (name : String) : Except String Unit :=
  if class_method_names.contains name then Except.ok ()
  else Except.error ("AttributeError: " ++ name)

/-- The metrics dict as `__init__` creates it (src lines 148-154). -/
def init_metrics : EthicalMetrics := {}

/-- `__init__` (src lines 128-164). The profile import `GENESIS_PROFILE`
lives in `genesis_profile.py`, outside `src/`; per the spec (section 6,
Profile source) it only supplies the foundation statement lists, so it is
abstracted into the `foundation` argument. All field assignments and
`_initialize_principle_weights` are total; `_setup_core_interceptors`
(src lines 207-225) then evaluates `self._evaluate_data_access` and the
four other interceptor evaluators as arguments to `register_interceptor`,
in source order. Were all five lookups to succeed the constructor would
finish with the initial runtime state (`governance_active=False`, empty
history, zeroed metrics). -/
def governor_init (foundation : List String) :
    Except String GovernorState := do
  let weights := init_principle_weights foundation
  getattr_method "_evaluate_data_access"
  getattr_method "_evaluate_system_modification"
  getattr_method "_evaluate_user_interaction"
  getattr_method "_evaluate_ai_decision"
  getattr_method "_evaluate_network_communication"
  Except.ok
    { governance_active := false,
      strictness_level := 7/10,
      learning_mode := true,
      decision_history := [],
      monitoring_queue := [],
      active_restrictions := [],
      principle_weights := weights,
      violation_patterns := [],
      ethical_metrics := init_metrics,
      action_interceptors := [] }

/-- `evaluate_action` as the module defines it (src lines 1717-1801). The
first statement of the inactive branch (line 1739) and of the active branch
(line 1754) is `self._generate_decision_id(action_type, actor)`;
`_generate_decision_id` is not among `class_method_names`, so the attribute
lookup raises `AttributeError` before any decision is constructed, any
history appended or any metric incremented, in both branches. -/
def evaluate_action_literal (s : GovernorState)
    (action_type actor : String) :
    GovernorState × Except String EthicalDecision :=
  if s.governance_active = false then
    (s, Except.error ("AttributeError: " ++ "_generate_decision_id"))
  else
    (s, Except.error ("AttributeError: " ++ "_generate_decision_id"))

/-- Capacity of the decision history: `deque(maxlen=10000)`
(src line 141). -/
def history_maxlen : Nat := 10000

/-- One `self.decision_history.append(decision)` (src line 1772) on the
bounded deque: at capacity the oldest (leftmost) entry is evicted. -/
def bounded_append (h : List EthicalDecision) (d : EthicalDecision) :
    List EthicalDecision :=
  if h.length < history_maxlen then h ++ [d] else h.tail ++ [d]

/-- The history contents after a sequence of recorded evaluations, each
appending its decision to the initially empty deque. -/
def record_history (ds : List EthicalDecision) : List EthicalDecision :=
  ds.foldl bounded_append []

/-- The metric updates of one evaluation (src lines 1773-1781):
`total_decisions` always, then one per-kind counter. -/
def bump_metrics (m : EthicalMetrics) (d : EthicalDecision) :
    EthicalMetrics :=
  let m1 := { m with total_decisions := m.total_decisions + 1 }
  match d.decision with
  | EthicalDecisionType.block =>
      { m1 with violations_prevented := m1.violations_prevented + 1 }
  | EthicalDecisionType.restrict =>
      { m1 with restrictions_imposed := m1.restrictions_imposed + 1 }
  | EthicalDecisionType.escalate =>
      { m1 with escalations_required := m1.escalations_required + 1 }
  | _ => m1

/-- Modelled from the spec: `_generate_decision_id` is called by
`evaluate_action` (src lines 1739 and 1754) but defined nowhere in the
module. Spec section 4.4 only requires a generated decision id, so it is
modelled as a total composite of the inputs and the clock. -/
def generate_decision_id_modelled (amb : Ambient)
    (action_type actor : String) : String :=
  "decision_" ++ action_type ++ "_" ++ actor ++ "_" ++ toString amb.now

/-- Modelled from the spec: `_infer_context` is called by `evaluate_action`
(src line 1758) but defined nowhere in the module. Spec section 4.2: a
best-effort construction that never fails and falls back to the
`EthicalContext` defaults when `action_data` carries no signal; modelled as
the default context, with `action_data` ignored. -/
def infer_context_modelled (action_type actor : String)
    (action_data : List (String × String)) : EthicalContext :=
  { action_type := action_type, actor := actor }

/-- Modelled from the spec: `_general_ethical_evaluation` is called by
`evaluate_action` (src lines 1767-1769) but defined nowhere in the module.
Spec sections 4.3-4.4 route the non-intercepted case through the same
violation/concern pipeline as `_evaluate_action`, here with the decision id
generated by the caller. -/
def general_ethical_evaluation_modelled (amb : Ambient)
    (action_type actor : String) (action_data : List (String × String))
    (c : EthicalContext) (decision_id : String) : EthicalDecision :=
  decision_pipeline decision_id amb.now action_type c

/-- Modelled from the spec: `_learn_from_decision` is called by
`evaluate_action` (src line 1799) but defined nowhere in the module. Spec
section 4.5: nudge the weight of each affected principle up on
block/restrict and down otherwise, clamped to [0,1], and increment
`learning_adjustments`; the decision itself is left untouched. -/
def learn_from_decision_modelled (s : GovernorState) (d : EthicalDecision) :
    GovernorState :=
  let delta : ℚ := 1/100
  let weights := d.affected_principles.foldl
    (fun acc p =>
      match lookupStr acc p with
      | none => acc
      | some w =>
        let up := d.decision = EthicalDecisionType.block ∨
                  d.decision = EthicalDecisionType.restrict
        let w2 := if up then min 1 (w + delta) else max 0 (w - delta)
        (p, w2) :: acc)
    s.principle_weights
  { s with
    principle_weights := weights,
    ethical_metrics :=
      { s.ethical_metrics with
        learning_adjustments := s.ethical_metrics.learning_adjustments + 1 } }

/-- The decision returned by the inactive branch of `evaluate_action`
(src lines 1740-1751), once a decision id is available. -/
def governance_inactive_decision (decision_id : String) (amb : Ambient)
    (action_type actor : String) (context : Option EthicalContext) :
    EthicalDecision :=
  { decision_id := decision_id,
    timestamp := amb.now,
    action_type := action_type,
    actor := actor,
    context := context.getD { action_type := action_type, actor := actor },
    decision := EthicalDecisionType.allow,
    severity := EthicalSeverity.info,
    affected_principles := [],
    reasoning := "Ethical governance not active",
    confidence := 1 }

/-- `evaluate_action` (src lines 1717-1801) with its four missing helper
methods replaced by the spec-modelled totals above, so that the statements
the module does contain become reachable. Inactive branch: return the
allow/info bypass decision, touching nothing. Active branch: resolve the
context, dispatch to a registered interceptor or the general evaluation,
append to history, bump the metrics, then call the awareness sink
`perceive_ethical_decision` (src lines 1784-1795) with no surrounding
`try`: a sink failure (`sinkError = some m`) propagates, after the history
and metric writes and before the learning step. -/
def evaluate_action_modelled (s : GovernorState) (amb : Ambient)
    (action_type actor : String) (action_data : List (String × String))
    (context : Option EthicalContext) (sinkError : Option String) :
    GovernorState × Except String EthicalDecision :=
  if s.governance_active = false then
    (s, Except.ok (governance_inactive_decision
          (generate_decision_id_modelled amb action_type actor)
          amb action_type actor context))
  else
    let decision_id := generate_decision_id_modelled amb action_type actor
    let c := context.getD (infer_context_modelled action_type actor action_data)
    let d :=
      match lookupStr s.action_interceptors action_type with
      | some f => f actor action_data c decision_id
      | none =>
        general_ethical_evaluation_modelled amb action_type actor
          action_data c decision_id
    let s1 := { s with
      decision_history := bounded_append s.decision_history d,
      ethical_metrics := bump_metrics s.ethical_metrics d }
    match sinkError with
    | some m => (s1, Except.error m)
    | none =>
      let s2 := if s1.learning_mode then learn_from_decision_modelled s1 d
                else s1
      (s2, Except.ok d)

/-- A fixed ambient reading used by concrete instances. -/
def amb0 : Ambient := { now := 1700000000, hashAT := 987654 }

/-- A concrete governor state in its initial configuration
(`governance_active = false`, everything empty, as `__init__` would have
produced it had construction succeeded). -/
def s0 : GovernorState :=
  { governance_active := false,
    strictness_level := 7/10,
    learning_mode := true,
    decision_history := [],
    monitoring_queue := [],
    active_restrictions := [],
    principle_weights := default_weights,
    violation_patterns := [],
    ethical_metrics := init_metrics,
    action_interceptors := [] }

/-- The same state after `activate_governance` has set the flag. -/
def sActive : GovernorState := { s0 with governance_active := true }

/-- An empty context map (every `get` falls back to its default). -/
def cm0 : ContextMap := {}

/-- A context map describing sensitive data access without consent. -/
def cmBad : ContextMap :=
  { persona := some "agent",
    sensitive_data := some true,
    user_consent := some false }

/-- A concrete context with sensitive data involved and consent denied. -/
def ctxViol : EthicalContext :=
  { action_type := "data_access", actor := "agent",
    sensitive_data_involved := true, user_consent := some false }

/-- A dummy interceptor that allows everything, used to populate a registry
in concrete instances. -/
def fn0 : InterceptorFn :=
  fun actor _ c decision_id =>
    { decision_id := decision_id, timestamp := 0,
      action_type := c.action_type, actor := actor, context := c,
      decision := EthicalDecisionType.allow,
      severity := EthicalSeverity.info, affected_principles := [],
      reasoning := "interceptor", confidence := 1 }

/-- The active state with an interceptor registered for `data_access`. -/
def sInt : GovernorState :=
  { sActive with action_interceptors := [("data_access", fn0)] }

/-- A schematic decision used to build long append sequences. -/
def dummy_decision (i : Nat) : EthicalDecision :=
  { decision_id := toString i, timestamp := i, action_type := "a",
    actor := "b", context := { action_type := "a", actor := "b" },
    decision := EthicalDecisionType.allow,
    severity := EthicalSeverity.info, affected_principles := [],
    reasoning := "", confidence := 1 }

/-- A sequence of `n` distinct decisions. -/
def dummy_history_input (n : Nat) : List EthicalDecision :=
  (List.range n).map dummy_decision

/-- C2: every attempt to construct an `EthicalGovernor` raises
`AttributeError`: `__init__` reaches `_setup_core_interceptors`, whose very
first `register_interceptor` call evaluates `self._evaluate_data_access`,
and none of the five interceptor evaluators it names is defined anywhere in
the class body, so no instance is ever obtained, whatever foundation the
profile supplies. -/
theorem construction_always_raises :
    (∀ foundation : List String,
      governor_init foundation =
        Except.error ("AttributeError: " ++ "_evaluate_data_access")) ∧
    interceptor_method_names.all
      (fun n => !(class_method_names.contains n)) = true := by
  constructor
  · intro foundation
    rfl
  · decide

/-- C4 (code bug): `evaluate_action` invoked while `governance_active` is
false does not return the documented allow/info decision; its first
statement calls the missing `_generate_decision_id`, so the call raises
`AttributeError` (state untouched) instead of returning. -/
theorem evaluate_inactive_raises :
    class_method_names.contains "_generate_decision_id" = false ∧
    s0.governance_active = false ∧
    evaluate_action_literal s0 "test_action" "test_actor" =
      (s0, Except.error ("AttributeError: " ++ "_generate_decision_id")) := by
  refine ⟨by decide, rfl, rfl⟩

/-- C1: for every action type and context map, `review_decision` never
propagates an internal error: the call always returns a decision, and
whenever the `try` body raises a message `m` — during context construction
or during evaluation/emission — the returned decision is the fail-closed
fallback with `decision=block`, `severity=critical`,
`escalation_reason="review_system_error"` and `m` folded into the
reasoning string. -/
theorem review_fail_closed (s : GovernorState) (amb : Ambient)
    (action_type : String) (cm : ContextMap)
    (metadata : Option (List (String × String)))
    (ce se : Option String) :
    (∃ d, (review_decision s amb action_type cm metadata ce se).2 =
      Except.ok d) ∧
    (∀ m, review_body_error ce se = some m →
      (review_decision s amb action_type cm metadata ce se).2 =
        Except.ok (review_fallback amb action_type cm m) ∧
      (review_fallback amb action_type cm m).decision =
        EthicalDecisionType.block ∧
      (review_fallback amb action_type cm m).severity =
        EthicalSeverity.critical ∧
      (review_fallback amb action_type cm m).escalation_reason =
        some "review_system_error" ∧
      (review_fallback amb action_type cm m).reasoning =
        "Ethical review failed: " ++ m) := by
  cases ce with
  | some m0 =>
    refine ⟨⟨review_fallback amb action_type cm m0, rfl⟩, ?_⟩
    intro m hm
    simp only [review_body_error, Option.some.injEq] at hm
    subst hm
    exact ⟨rfl, rfl, rfl, rfl, rfl⟩
  | none =>
    cases se with
    | some m0 =>
      refine ⟨⟨review_fallback amb action_type cm m0, rfl⟩, ?_⟩
      intro m hm
      simp only [review_body_error, Option.some.injEq] at hm
      subst hm
      exact ⟨rfl, rfl, rfl, rfl, rfl⟩
    | none =>
      refine ⟨⟨evaluate_action_general amb action_type
        (build_ethical_context action_type cm (metadata.getD [])), rfl⟩, ?_⟩
      intro m hm
      simp [review_body_error] at hm

/-- Witness for `review_fail_closed` at a concrete raising construction. -/
theorem review_fail_closed_witness :
    review_body_error (some "boom") none = some "boom" ∧
    (review_decision s0 amb0 "data_access" cm0 none (some "boom") none).2 =
      Except.ok (review_fallback amb0 "data_access" cm0 "boom") ∧
    (review_fallback amb0 "data_access" cm0 "boom").decision =
      EthicalDecisionType.block ∧
    (review_fallback amb0 "data_access" cm0 "boom").escalation_reason =
      some "review_system_error" :=
  ⟨rfl,
   ((review_fail_closed s0 amb0 "data_access" cm0 none (some "boom")
      none).2 "boom" rfl).1,
   ((review_fail_closed s0 amb0 "data_access" cm0 none (some "boom")
      none).2 "boom" rfl).2.1,
   ((review_fail_closed s0 amb0 "data_access" cm0 none (some "boom")
      none).2 "boom" rfl).2.2.2.1⟩

/-- C10: a `review_decision` call leaves every component of the governor
state unchanged (history, metrics, weights, registry), its result does not
depend on the state at all — in particular not on which interceptors are
registered — and on the failure-free path it is exactly the general
violation/concern evaluation of the context it builds. -/
theorem review_pure_frame (s : GovernorState) (amb : Ambient)
    (action_type : String) (cm : ContextMap)
    (metadata : Option (List (String × String)))
    (ce se : Option String) :
    (review_decision s amb action_type cm metadata ce se).1 = s ∧
    (∀ t : GovernorState,
      (review_decision t amb action_type cm metadata ce se).2 =
      (review_decision s amb action_type cm metadata ce se).2) ∧
    (ce = none → se = none →
      (review_decision s amb action_type cm metadata ce se).2 =
        Except.ok (evaluate_action_general amb action_type
          (build_ethical_context action_type cm (metadata.getD [])))) := by
  refine ⟨?_, ?_, ?_⟩
  · cases ce with
    | some m => rfl
    | none => cases se with
      | some m => rfl
      | none => rfl
  · intro t
    cases ce with
    | some m => rfl
    | none => cases se with
      | some m => rfl
      | none => rfl
  · intro hce hse
    subst hce; subst hse
    rfl

/-- Witness for `review_pure_frame`: the result with a registered
`data_access` interceptor matches the result without one, and the clean run
is the general evaluation. -/
theorem review_pure_frame_witness :
    (review_decision sInt amb0 "data_access" cmBad none none none).2 =
      (review_decision s0 amb0 "data_access" cmBad none none none).2 ∧
    (review_decision s0 amb0 "data_access" cmBad none none none).2 =
      Except.ok (evaluate_action_general amb0 "data_access"
        (build_ethical_context "data_access" cmBad [])) ∧
    (review_decision s0 amb0 "data_access" cmBad none none none).1 = s0 :=
  ⟨(review_pure_frame s0 amb0 "data_access" cmBad none none none).2.1 sInt,
   (review_pure_frame s0 amb0 "data_access" cmBad none none none).2.2 rfl rfl,
   (review_pure_frame s0 amb0 "data_access" cmBad none none none).1⟩

/-- When `_check_violations` reports anything, the pipeline takes the block
branch: block/violation, confidence 0.95, affected principles exactly the
violation list, no monitoring requirements. -/
theorem decision_pipeline_block (decision_id : String) (now : Nat)
    (action_type : String) (c : EthicalContext)
    (h : check_violations action_type c ≠ []) :
    (decision_pipeline decision_id now action_type c).decision =
      EthicalDecisionType.block ∧
    (decision_pipeline decision_id now action_type c).severity =
      EthicalSeverity.violation ∧
    (decision_pipeline decision_id now action_type c).confidence = 95/100 ∧
    (decision_pipeline decision_id now action_type c).affected_principles =
      check_violations action_type c ∧
    (decision_pipeline decision_id now action_type c).monitoring_requirements
      = [] := by
  cases hv : check_violations action_type c with
  | nil => exact absurd hv h
  | cons p rest =>
    simp [decision_pipeline, hv]

/-- With `sensitive_data_involved = true` and a consent value other than
`true`, the privacy rule of `_check_violations` fires first. -/
theorem check_violations_privacy (action_type : String)
    (c : EthicalContext)
    (hs : c.sensitive_data_involved = true)
    (hc : c.user_consent ≠ some true) :
    ∃ rest, check_violations action_type c = "privacy" :: rest := by
  have hcb : c.user_consent.getD false = false := by
    cases hcv : c.user_consent with
    | none => rfl
    | some b =>
      cases b with
      | false => rfl
      | true => exact absurd hcv hc
  refine ⟨(if c.system_modification && (c.scope == "global")
            then ["security"] else []) ++
          (if !c.user_visible && c.persistent then ["autonomy"] else []), ?_⟩
  simp [check_violations, hs, hcb]

/-- C5: any context with sensitive data involved and consent not equal to
true makes `_check_violations` include privacy, and the general evaluation
blocks it as a violation with confidence 0.95; when neither of the other
two violation rules fires, privacy is the only affected principle. -/
theorem privacy_violation_blocks (amb : Ambient) (action_type : String)
    (c : EthicalContext)
    (hs : c.sensitive_data_involved = true)
    (hc : c.user_consent ≠ some true) :
    "privacy" ∈ check_violations action_type c ∧
    (evaluate_action_general amb action_type c).decision =
      EthicalDecisionType.block ∧
    (evaluate_action_general amb action_type c).severity =
      EthicalSeverity.violation ∧
    (evaluate_action_general amb action_type c).confidence = 95/100 ∧
    ((c.system_modification && (c.scope == "global")) = false →
     (!c.user_visible && c.persistent) = false →
     (evaluate_action_general amb action_type c).affected_principles =
       ["privacy"]) := by
  obtain ⟨rest, hv⟩ := check_violations_privacy action_type c hs hc
  have hne : check_violations action_type c ≠ [] := by
    rw [hv]; exact List.cons_ne_nil _ _
  obtain ⟨hd, hsev, hconf, haff, hmon⟩ :=
    decision_pipeline_block
      ("decision_" ++ toString amb.now ++ "_" ++ toString (amb.hashAT % 10000))
      amb.now action_type c hne
  refine ⟨by rw [hv]; exact List.mem_cons_self _ _, hd, hsev, hconf, ?_⟩
  intro h2 h3
  have hcb : c.user_consent.getD false = false := by
    cases hcv : c.user_consent with
    | none => rfl
    | some b =>
      cases b with
      | false => rfl
      | true => exact absurd hcv hc
  have hvexact : check_violations action_type c = ["privacy"] := by
    simp [check_violations, hs, hcb, h2, h3]
  rw [show (evaluate_action_general amb action_type c) =
        decision_pipeline
          ("decision_" ++ toString amb.now ++ "_" ++
            toString (amb.hashAT % 10000)) amb.now action_type c from rfl,
      haff, hvexact]

/-- Witness for `privacy_violation_blocks` at the concrete context of the
spec scenario (`data_access`, sensitive data, consent false). -/
theorem privacy_violation_blocks_witness :
    "privacy" ∈ check_violations "data_access" ctxViol ∧
    (evaluate_action_general amb0 "data_access" ctxViol).decision =
      EthicalDecisionType.block ∧
    (evaluate_action_general amb0 "data_access" ctxViol).affected_principles
      = ["privacy"] :=
  ⟨(privacy_violation_blocks amb0 "data_access" ctxViol rfl
      (by decide)).1,
   (privacy_violation_blocks amb0 "data_access" ctxViol rfl
      (by decide)).2.1,
   (privacy_violation_blocks amb0 "data_access" ctxViol rfl
      (by decide)).2.2.2.2 (by decide) (by decide)⟩

/-- Counterexample to C3: with governance inactive (the initial state),
an action submitted through `review_decision` is not unconditionally
allowed — the method never consults `governance_active`, the violation
check runs, and a sensitive-data access without consent comes back
blocked. -/
theorem review_ignores_inactive_governance :
    s0.governance_active = false ∧
    (review_decision s0 amb0 "data_access" cmBad none none none).2 =
      Except.ok (evaluate_action_general amb0 "data_access"
        (build_ethical_context "data_access" cmBad [])) ∧
    (evaluate_action_general amb0 "data_access"
      (build_ethical_context "data_access" cmBad [])).decision =
        EthicalDecisionType.block ∧
    check_violations "data_access"
      (build_ethical_context "data_access" cmBad []) = ["privacy"] := by
  refine ⟨rfl, rfl, ?_, by decide⟩
  decide

/-- C3 as amended: the unconditional-allow bypass exists only in
`evaluate_action`; `review_decision` ignores `governance_active`
completely, so while governance is inactive the violation and concern
checks still run on the review path and a sensitive-data action without
consent is blocked there. -/
theorem review_checks_while_inactive (s : GovernorState) (amb : Ambient)
    (action_type : String) (cm : ContextMap)
    (metadata : Option (List (String × String)))
    (hg : s.governance_active = false)
    (hs : cm.sensitive_data = some true)
    (hc : cm.user_consent ≠ some true) :
    "privacy" ∈ check_violations action_type
      (build_ethical_context action_type cm (metadata.getD [])) ∧
    (review_decision s amb action_type cm metadata none none).2 =
      Except.ok (evaluate_action_general amb action_type
        (build_ethical_context action_type cm (metadata.getD []))) ∧
    (evaluate_action_general amb action_type
      (build_ethical_context action_type cm (metadata.getD []))).decision =
        EthicalDecisionType.block ∧
    (evaluate_action_general amb action_type
      (build_ethical_context action_type cm (metadata.getD []))).severity =
        EthicalSeverity.violation := by
  have hsdi : (build_ethical_context action_type cm
      (metadata.getD [])).sensitive_data_involved = true := by
    simp [build_ethical_context, hs]
  have huc : (build_ethical_context action_type cm
      (metadata.getD [])).user_consent ≠ some true := by
    simpa [build_ethical_context] using hc
  obtain ⟨hmem, hd, hsev, _, _⟩ :=
    privacy_violation_blocks amb action_type
      (build_ethical_context action_type cm (metadata.getD [])) hsdi huc
  exact ⟨hmem, rfl, hd, hsev⟩

/-- Witness for `review_checks_while_inactive` at the initial state and a
concrete sensitive-data map. -/
theorem review_checks_while_inactive_witness :
    s0.governance_active = false ∧
    (review_decision s0 amb0 "user_interact" cmBad none none none).2 =
      Except.ok (evaluate_action_general amb0 "user_interact"
        (build_ethical_context "user_interact" cmBad [])) ∧
    (evaluate_action_general amb0 "user_interact"
      (build_ethical_context "user_interact" cmBad [])).decision =
        EthicalDecisionType.block :=
  ⟨rfl,
   (review_checks_while_inactive s0 amb0 "user_interact" cmBad none rfl rfl
      (by decide)).2.1,
   (review_checks_while_inactive s0 amb0 "user_interact" cmBad none rfl rfl
      (by decide)).2.2.1⟩

/-- Counterexample to C6: on a context that triggers a violation, the
general evaluation returns from the violation branch before ever invoking
`_check_concerns` — the instrumented pipeline records only the violation
check, so the two checks do not both run on every evaluation. -/
theorem concerns_check_skipped_on_violation :
    check_violations "data_access" ctxViol ≠ [] ∧
    (decision_pipeline_traced "id0" 0 "data_access" ctxViol).2 =
      ["check_violations"] ∧
    ¬ ("check_concerns" ∈
        (decision_pipeline_traced "id0" 0 "data_access" ctxViol).2) := by
  refine ⟨by decide, by decide, by decide⟩

/-- C6 as amended: violations take strict precedence over concerns — a
non-empty violation set always yields block/violation whatever the concern
check would say — but the two checks do not both always run:
`_check_concerns` is invoked exactly when `_check_violations` returned an
empty list, and the instrumented pipeline computes the same decision as the
plain one. -/
theorem violations_precede_concerns (decision_id : String) (now : Nat)
    (action_type : String) (c : EthicalContext)
    (h : check_violations action_type c ≠ []) :
    (decision_pipeline_traced decision_id now action_type c).1.decision =
      EthicalDecisionType.block ∧
    (decision_pipeline_traced decision_id now action_type c).1.severity =
      EthicalSeverity.violation ∧
    (decision_pipeline_traced decision_id now action_type c).2 =
      ["check_violations"] ∧
    (∀ c2 : EthicalContext, ∀ at2 : String,
      (decision_pipeline_traced decision_id now at2 c2).2 =
        (if check_violations at2 c2 = []
         then ["check_violations", "check_concerns"]
         else ["check_violations"])) ∧
    (decision_pipeline_traced decision_id now action_type c).1 =
      decision_pipeline decision_id now action_type c := by
  have hfst : ∀ (c2 : EthicalContext) (at2 : String),
      (decision_pipeline_traced decision_id now at2 c2).1 =
        decision_pipeline decision_id now at2 c2 := by
    intro c2 at2
    cases hv : check_violations at2 c2 with
    | nil => simp [decision_pipeline_traced, hv]
    | cons p rest => simp [decision_pipeline_traced, hv]
  obtain ⟨hd, hsev, _, _, _⟩ :=
    decision_pipeline_block decision_id now action_type c h
  refine ⟨?_, ?_, ?_, ?_, hfst c action_type⟩
  · rw [hfst c action_type]; exact hd
  · rw [hfst c action_type]; exact hsev
  · cases hv : check_violations action_type c with
    | nil => exact absurd hv h
    | cons p rest => simp [decision_pipeline_traced, hv]
  · intro c2 at2
    cases hv : check_violations at2 c2 with
    | nil => simp [decision_pipeline_traced, hv]
    | cons p rest => simp [decision_pipeline_traced, hv]

/-- Witness for `violations_precede_concerns` at the concrete violating
context. -/
theorem violations_precede_concerns_witness :
    (decision_pipeline_traced "id1" 5 "data_access" ctxViol).1.decision =
      EthicalDecisionType.block ∧
    (decision_pipeline_traced "id1" 5 "data_access" ctxViol).2 =
      ["check_violations"] :=
  ⟨(violations_precede_concerns "id1" 5 "data_access" ctxViol
      (by decide)).1,
   (violations_precede_concerns "id1" 5 "data_access" ctxViol
      (by decide)).2.2.1⟩

/-- Counterexample to C7: with governance active and the missing helpers
modelled as totals, a raising awareness sink makes `evaluate_action`
propagate the sink error to the caller instead of returning the computed
decision — the emission at src lines 1784-1795 has no surrounding
`try`/`except`. -/
theorem sink_failure_surfaces :
    sActive.governance_active = true ∧
    (evaluate_action_modelled sActive amb0 "test_action" "actor" [] none
      (some "sink failure")).2 = Except.error "sink failure" :=
  ⟨rfl, rfl⟩

/-- C7 as amended: on every `evaluate_action` call with governance active
(missing helpers spec-modelled as totals), a failure raised by the
awareness-sink emission propagates to the caller: the call yields the
sink error, not the computed decision, and this happens after the history
append and metric updates and before any learning step. -/
theorem sink_failure_propagates (s : GovernorState) (amb : Ambient)
    (action_type actor : String) (action_data : List (String × String))
    (context : Option EthicalContext) (m : String)
    (hactive : s.governance_active = true) :
    (evaluate_action_modelled s amb action_type actor action_data context
      (some m)).2 = Except.error m := by
  simp [evaluate_action_modelled, hactive]

/-- Witness for `sink_failure_propagates` at a concrete active state. -/
theorem sink_failure_propagates_witness :
    sActive.governance_active = true ∧
    (evaluate_action_modelled sActive amb0 "net_scan" "aura" [] none
      (some "boom")).2 = Except.error "boom" :=
  ⟨rfl, sink_failure_propagates sActive amb0 "net_scan" "aura" [] none
    "boom" rfl⟩

/-- The bounded deque fold: starting from any list not above capacity, the
result of appending a batch is the capacity-suffix of the concatenation. -/
theorem bounded_fold_eq (ds : List EthicalDecision) :
    ∀ l : List EthicalDecision, l.length ≤ history_maxlen →
      List.foldl bounded_append l ds =
        (l ++ ds).drop ((l ++ ds).length - history_maxlen) := by
  induction ds with
  | nil =>
    intro l hl
    simp [Nat.sub_eq_zero_of_le hl]
  | cons d rest ih =>
    intro l hl
    by_cases hlt : l.length < history_maxlen
    · have hb : bounded_append l d = l ++ [d] := by
        simp only [bounded_append, if_pos hlt]
      have hstep : (bounded_append l d).length ≤ history_maxlen := by
        rw [hb, List.length_append, List.length_cons, List.length_nil]
        exact hlt
      rw [List.foldl_cons, ih (bounded_append l d) hstep, hb,
        List.append_assoc, List.singleton_append]
    · have hle : l.length = history_maxlen :=
        Nat.le_antisymm hl (Nat.le_of_not_lt hlt)
      have hnil : l ≠ [] := by
        intro hcontra
        rw [hcontra] at hle
        exact absurd hle (by decide)
      obtain ⟨a, t, rfl⟩ := List.exists_cons_of_ne_nil hnil
      have hb : bounded_append (a :: t) d = t ++ [d] := by
        simp only [bounded_append, if_neg hlt]
        rfl
      have hlen : t.length + 1 = history_maxlen := by
        simpa using hle
      have hstep : (bounded_append (a :: t) d).length ≤ history_maxlen := by
        rw [hb, List.length_append, List.length_cons, List.length_nil]
        exact Nat.le_of_eq hlen
      rw [List.foldl_cons, ih (bounded_append (a :: t) d) hstep, hb]
      have hA : (t ++ [d]) ++ rest = t ++ (d :: rest) := by
        rw [List.append_assoc, List.singleton_append]
      have hcons : (a :: t) ++ (d :: rest) = a :: (t ++ (d :: rest)) := rfl
      rw [hA, hcons]
      have e1 : (t ++ (d :: rest)).length - history_maxlen = rest.length := by
        rw [List.length_append, List.length_cons, ← hlen]
        omega
      have e2 : (a :: (t ++ (d :: rest))).length - history_maxlen =
          rest.length + 1 := by
        rw [List.length_cons, List.length_append, List.length_cons, ← hlen]
        omega
      rw [e1, e2, List.drop_succ_cons]

/-- C8: the decision history never exceeds 10,000 entries and eviction is
oldest-first: after more than 10,000 recorded evaluations the deque holds
exactly the most recent 10,000 decisions in insertion order. -/
theorem history_bounded_suffix (ds : List EthicalDecision)
    (h : ds.length > 10000) :
    (record_history ds).length = 10000 ∧
    record_history ds = ds.drop (ds.length - 10000) := by
  have hfold := bounded_fold_eq ds [] (by simp)
  have heq : record_history ds = ds.drop (ds.length - 10000) := by
    simp only [record_history]
    rw [hfold]
    simp [history_maxlen]
  refine ⟨?_, heq⟩
  rw [heq, List.length_drop]
  omega

/-- Witness for `history_bounded_suffix` on 10,001 distinct decisions. -/
theorem history_bounded_suffix_witness :
    (dummy_history_input 10001).length > 10000 ∧
    ((record_history (dummy_history_input 10001)).length = 10000 ∧
      record_history (dummy_history_input 10001) =
        (dummy_history_input 10001).drop
          ((dummy_history_input 10001).length - 10000)) :=
  ⟨by simp [dummy_history_input],
   history_bounded_suffix (dummy_history_input 10001)
     (by simp [dummy_history_input])⟩

/-- A weight map is coherent when every binding it holds agrees with the
`default_weights` table (true throughout `_initialize_principle_weights`,
because every seed weight equals the default of the same principle). -/
def goodW (w : List (String × ℚ)) : Prop :=
  ∀ p v, lookupStr w p = some v → lookupStr default_weights p = some v

theorem goodW_nil : goodW [] := by
  intro p v h
  simp [lookupStr] at h

theorem goodW_cons {acc : List (String × ℚ)} {q : String} {u : ℚ}
    (hacc : goodW acc) (hq : lookupStr default_weights q = some u) :
    goodW ((q, u) :: acc) := by
  intro p v h
  simp only [lookupStr] at h
  by_cases hpq : p = q
  · rw [if_pos hpq] at h
    obtain rfl : u = v := Option.some.inj h
    rw [hpq]
    exact hq
  · rw [if_neg hpq] at h
    exact hacc p v h

theorem seed_step_good {acc : List (String × ℚ)} (stmt : String)
    (hacc : goodW acc) : goodW (seed_step acc stmt) := by
  unfold seed_step
  split_ifs
  · exact goodW_cons hacc rfl
  · exact goodW_cons hacc rfl
  · exact goodW_cons hacc rfl
  · exact goodW_cons hacc rfl
  · exact goodW_cons hacc rfl
  · exact hacc

theorem seed_fold_good (foundation : List String) :
    ∀ acc : List (String × ℚ), goodW acc →
      goodW (seed_fold foundation acc) := by
  induction foundation with
  | nil => intro acc hacc; exact hacc
  | cons stmt rest ih =>
    intro acc hacc
    exact ih (seed_step acc stmt) (seed_step_good stmt hacc)

theorem fill_fold_good (pairs : List (String × ℚ)) :
    ∀ acc : List (String × ℚ), goodW acc →
      (∀ pv, pv ∈ pairs → lookupStr default_weights pv.1 = some pv.2) →
      goodW (fill_fold pairs acc) := by
  induction pairs with
  | nil => intro acc hacc _; exact hacc
  | cons qu rest ih =>
    intro acc hacc hp
    obtain ⟨q, u⟩ := qu
    show goodW (fill_fold rest
      (if (lookupStr acc q).isSome then acc else (q, u) :: acc))
    by_cases hq : (lookupStr acc q).isSome
    · rw [if_pos hq]
      exact ih acc hacc (fun pv hpv => hp pv (List.mem_cons_of_mem _ hpv))
    · rw [if_neg hq]
      refine ih ((q, u) :: acc) ?_
        (fun pv hpv => hp pv (List.mem_cons_of_mem _ hpv))
      exact goodW_cons hacc (hp (q, u) (List.mem_cons_self _ _))

theorem lookup_cons_isSome {α : Type} (q : String) (u : α)
    (acc : List (String × α)) (p : String)
    (h : (lookupStr acc p).isSome) :
    (lookupStr ((q, u) :: acc) p).isSome := by
  simp only [lookupStr]
  by_cases hpq : p = q
  · rw [if_pos hpq]; rfl
  · rw [if_neg hpq]; exact h

theorem fill_fold_isSome (pairs : List (String × ℚ)) :
    ∀ acc : List (String × ℚ), ∀ p : String,
      ((∃ w, (p, w) ∈ pairs) ∨ (lookupStr acc p).isSome) →
      (lookupStr (fill_fold pairs acc) p).isSome := by
  induction pairs with
  | nil =>
    intro acc p h
    rcases h with ⟨w, hw⟩ | h
    · exact absurd hw (List.not_mem_nil _)
    · exact h
  | cons qu rest ih =>
    intro acc p h
    obtain ⟨q, u⟩ := qu
    show (lookupStr (fill_fold rest
      (if (lookupStr acc q).isSome then acc else (q, u) :: acc)) p).isSome
    have hacc2 : (lookupStr acc p).isSome →
        (lookupStr (if (lookupStr acc q).isSome then acc
          else (q, u) :: acc) p).isSome := by
      intro hs
      by_cases hq : (lookupStr acc q).isSome
      · rw [if_pos hq]; exact hs
      · rw [if_neg hq]; exact lookup_cons_isSome q u acc p hs
    rcases h with ⟨w, hw⟩ | hs
    · rcases List.mem_cons.mp hw with heq | hmem
      · obtain ⟨rfl, rfl⟩ := Prod.mk.inj (heq)
        refine ih _ p (Or.inr ?_)
        by_cases hq : (lookupStr acc p).isSome
        · rw [if_pos hq]; exact hq
        · rw [if_neg hq]
          simp [lookupStr]
      · exact ih _ p (Or.inl ⟨w, hmem⟩)
    · exact ih _ p (Or.inr (hacc2 hs))

/-- Every lookup hit is a member of the association list. -/
theorem lookupStr_mem {α : Type} (l : List (String × α)) (p : String)
    (v : α) (h : lookupStr l p = some v) : (p, v) ∈ l := by
  induction l with
  | nil => simp [lookupStr] at h
  | cons qu rest ih =>
    obtain ⟨q, u⟩ := qu
    simp only [lookupStr] at h
    by_cases hpq : p = q
    · rw [if_pos hpq] at h
      obtain rfl := Option.some.inj h
      rw [hpq]
      exact List.mem_cons_self _ _
    · rw [if_neg hpq] at h
      exact List.mem_cons_of_mem _ (ih h)

/-- For every principle of the nine, the table
`_initialize_principle_weights` returns agrees with `default_weights` —
every seed weight coincides with the default of the same principle, so the
fill loop completes the map without ever disagreeing with it. -/
theorem init_weights_eq_default (foundation : List String) (p : String)
    (hp : p ∈ principle_names) :
    lookupStr (init_principle_weights foundation) p =
      lookupStr default_weights p := by
  have hgood : goodW (init_principle_weights foundation) := by
    refine fill_fold_good default_weights (seed_fold foundation [])
      (seed_fold_good foundation [] goodW_nil) ?_
    intro pv hpv
    fin_cases hpv <;> rfl
  have hdef : (lookupStr default_weights p).isSome := by
    fin_cases hp <;> decide
  obtain ⟨v0, hv0⟩ := Option.isSome_iff_exists.mp hdef
  have hsome : (lookupStr (init_principle_weights foundation) p).isSome := by
    refine fill_fold_isSome default_weights (seed_fold foundation []) p
      (Or.inl ⟨v0, lookupStr_mem _ _ _ hv0⟩)
  obtain ⟨u, hu⟩ := Option.isSome_iff_exists.mp hsome
  rw [hu, hgood p u hu]

/-- C9: for every foundation list, `_initialize_principle_weights` returns
without error a mapping covering all nine principles; a principle whose
name occurs case-insensitively as a substring of some foundation statement
carries its fixed seed weight (privacy/security 1.0,
transparency/autonomy 0.9, creativity 0.8), and a principle never matched
carries the hard-coded default. -/
theorem init_weights_complete (foundation : List String) :
    (∀ p, p ∈ principle_names →
      (lookupStr (init_principle_weights foundation) p).isSome = true) ∧
    (∀ p w, lookupStr seed_table p = some w →
      (∃ stmt ∈ foundation, pyIn p (py_lower stmt) = true) →
      lookupStr (init_principle_weights foundation) p = some w) ∧
    (∀ p w, p ∈ principle_names →
      (¬ ∃ stmt ∈ foundation, pyIn p (py_lower stmt) = true) →
      lookupStr default_weights p = some w →
      lookupStr (init_principle_weights foundation) p = some w) := by
  refine ⟨?_, ?_, ?_⟩
  · intro p hp
    have hdef : (lookupStr default_weights p).isSome := by
      fin_cases hp <;> decide
    rw [init_weights_eq_default foundation p hp]
    exact hdef
  · intro p w hw _
    have hcases : (p = "privacy" ∧ w = 1) ∨ (p = "security" ∧ w = 1) ∨
        (p = "transparency" ∧ w = 9/10) ∨ (p = "autonomy" ∧ w = 9/10) ∨
        (p = "creativity" ∧ w = 8/10) := by
      simp only [seed_table, lookupStr] at hw
      split_ifs at hw with h1 h2 h3 h4 h5
      · exact Or.inl ⟨h1, (Option.some.inj hw).symm⟩
      · exact Or.inr (Or.inl ⟨h2, (Option.some.inj hw).symm⟩)
      · exact Or.inr (Or.inr (Or.inl ⟨h3, (Option.some.inj hw).symm⟩))
      · exact Or.inr (Or.inr (Or.inr (Or.inl
          ⟨h4, (Option.some.inj hw).symm⟩)))
      · exact Or.inr (Or.inr (Or.inr (Or.inr
          ⟨h5, (Option.some.inj hw).symm⟩)))
    rcases hcases with ⟨rfl, rfl⟩ | ⟨rfl, rfl⟩ | ⟨rfl, rfl⟩ |
      ⟨rfl, rfl⟩ | ⟨rfl, rfl⟩
    · exact Eq.trans (init_weights_eq_default foundation _ (by decide)) rfl
    · exact Eq.trans (init_weights_eq_default foundation _ (by decide)) rfl
    · exact Eq.trans (init_weights_eq_default foundation _ (by decide)) rfl
    · exact Eq.trans (init_weights_eq_default foundation _ (by decide)) rfl
    · exact Eq.trans (init_weights_eq_default foundation _ (by decide)) rfl
  · intro p w hp _ hdef
    rw [init_weights_eq_default foundation p hp]
    exact hdef

/-- Witness for `init_weights_complete` at a concrete two-statement
foundation: the matched privacy principle gets its seed weight and the
never-matched fairness principle gets its default. -/
theorem init_weights_complete_witness :
    (lookupStr (init_principle_weights
      ["Respect user PRIVACY at all times", "foster Creativity"])
      "privacy").isSome = true ∧
    lookupStr (init_principle_weights
      ["Respect user PRIVACY at all times", "foster Creativity"])
      "privacy" = some 1 ∧
    lookupStr (init_principle_weights
      ["Respect user PRIVACY at all times", "foster Creativity"])
      "fairness" = some (8/10) :=
  ⟨(init_weights_complete
      ["Respect user PRIVACY at all times", "foster Creativity"]).1
      "privacy" (by decide),
   (init_weights_complete
      ["Respect user PRIVACY at all times", "foster Creativity"]).2.1
      "privacy" 1 rfl
      ⟨"Respect user PRIVACY at all times", by simp, by decide⟩,
   (init_weights_complete
      ["Respect user PRIVACY at all times", "foster Creativity"]).2.2
      "fairness" (8/10) (by decide) (by decide) rfl⟩

end GenesisGovernor
